import Mathlib

/-!
Shallow embedding of the predictive-infrastructure monitoring service
(`health_scorer.py`, `ml_decision_engine.py`, `event_manager.py`,
`audit_logger.py`, `analytics_engine.py`, `kubernetes_manager.py`,
`app.py`) together with theorems settling the specification claims.

Conventions of the embedding:
- Python floats are modelled as exact rationals (`ℚ`); `round(x, 1)` is
  modelled by `pyRound1`, round-half-to-even as Python's `round` performs
  on exact values.
- Python dictionaries of node metrics are modelled as a structure of
  `Option ℚ` fields; `dict.get(key, default)` becomes `Option.getD`.
- Nondeterministic environment inputs (UUIDs, wall-clock timestamps,
  logging) are elided from record payloads; numeric interpolation inside
  human-readable message strings is elided (the fixed message prefix is
  kept), since no claim inspects those interpolated digits.
- Code that can raise a Python exception is modelled with `Except`;
  external, unembeddable computations (the sklearn gradient-boosting
  model, the Kubernetes API) are parameters of the functions that call
  them, returning `Except` so that a fault of theirs can be represented.
-/

namespace PredictModel

/-- Python's `round` to an integer on an exact value: round half to even.
`n` is the floor and `f` the fractional part. -/
def pyRoundInt (x : ℚ) : ℤ :=
  let n := ⌊x⌋
  let f := x - n
  if 1/2 < f then n + 1
  else if f < 1/2 then n
  else if n % 2 = 0 then n else n + 1

/-- Python's `round(x, 1)`: round to one decimal digit. -/
def pyRound1 (x : ℚ) : ℚ := (pyRoundInt (10 * x) : ℚ) / 10

theorem floor_le_pyRoundInt (x : ℚ) : ⌊x⌋ ≤ pyRoundInt x := by
  unfold pyRoundInt
  dsimp only
  split_ifs <;> omega

theorem pyRoundInt_le_ceil (x : ℚ) : pyRoundInt x ≤ ⌈x⌉ := by
  unfold pyRoundInt
  dsimp only
  split_ifs with h1 h2 h3
  · have hx : (⌊x⌋ : ℚ) < x := by
      have := Int.floor_le x
      nlinarith [Int.sub_one_lt_floor x]
    have : ⌊x⌋ < ⌈x⌉ := by
      exact_mod_cast Int.lt_ceil.mpr hx
    omega
  · exact le_trans (Int.floor_le_ceil x) (le_refl _)
  · exact Int.floor_le_ceil x
  · have hx : (⌊x⌋ : ℚ) < x := by nlinarith [Int.floor_le x]
    have : ⌊x⌋ < ⌈x⌉ := Int.lt_ceil.mpr hx
    omega

theorem pyRound1_nonneg {x : ℚ} (hx : 0 ≤ x) : 0 ≤ pyRound1 x := by
  unfold pyRound1
  have h1 : (0 : ℤ) ≤ ⌊10 * x⌋ := Int.floor_nonneg.mpr (by linarith)
  have h2 := floor_le_pyRoundInt (10 * x)
  have : (0 : ℚ) ≤ (pyRoundInt (10 * x) : ℚ) := by exact_mod_cast le_trans h1 h2
  linarith

theorem pyRound1_le_hundred {x : ℚ} (hx : x ≤ 100) : pyRound1 x ≤ 100 := by
  unfold pyRound1
  have h1 : ⌈10 * x⌉ ≤ (1000 : ℤ) := Int.ceil_le.mpr (by push_cast; linarith)
  have h2 := pyRoundInt_le_ceil (10 * x)
  have : (pyRoundInt (10 * x) : ℚ) ≤ 1000 := by exact_mod_cast le_trans h2 h1
  linarith

/-- A taint entry as stored on a node (`{'key': .., 'value': .., 'effect': ..}`). -/
structure Taint where
  key : String
  value : String
  effect : String
deriving DecidableEq

/-- Per-node metric snapshot, the dict produced by the metrics source.
The five metric fields model optional dictionary entries (`dict.get`
defaults are applied at each use site, as in the Python source); `pods`
and `taints` model `node_data.get('pods', [])` / `node_data.get('taints', [])`. -/
structure NodeData where
  node_id : String := ""
  node_name : String := ""
  cpu_usage : Option ℚ := none
  memory_usage : Option ℚ := none
  temperature : Option ℚ := none
  network_latency : Option ℚ := none
  disk_io : Option ℚ := none
  pods : List String := []
  taints : List Taint := []
  status : String := "healthy"
deriving DecidableEq

namespace HealthScorer

/-- Threshold triple for one metric (`HealthScorer.THRESHOLDS` values). -/
structure ThresholdSpec where
  critical : ℚ
  warning : ℚ
  ok : ℚ

/-- Embeds `HealthScorer.THRESHOLDS.get(metric_name, {'critical': 100, 'warning': 75, 'ok': 50})`. -/
def THRESHOLDS (metric_name : String) : ThresholdSpec :=
  if metric_name = "cpu" then ⟨90, 75, 50⟩
  else if metric_name = "memory" then ⟨90, 80, 60⟩
  else if metric_name = "temperature" then ⟨85, 70, 50⟩
  else if metric_name = "latency" then ⟨50, 30, 10⟩
  else if metric_name = "disk_io" then ⟨85, 70, 40⟩
  else ⟨100, 75, 50⟩

/-- Embeds `HealthScorer.WEIGHTS[key]`. -/
def WEIGHTS (key : String) : ℚ :=
  if key = "cpu" then 25/100
  else if key = "memory" then 25/100
  else if key = "temperature" then 20/100
  else if key = "latency" then 15/100
  else if key = "disk_io" then 15/100
  else 0

/-- Embeds `HealthScorer.calculate_component_health`: 4-tier step function. -/
def calculate_component_health (metric_name : String) (value : ℚ) : ℚ :=
  let thresholds := THRESHOLDS metric_name
  if thresholds.critical ≤ value then 0
  else if thresholds.warning ≤ value then 25
  else if thresholds.ok ≤ value then 50
  else 100

/-- Embeds `HealthScorer._score_to_grade`. -/
def score_to_grade (score : ℚ) : String :=
  if 95 ≤ score then "A+"
  else if 90 ≤ score then "A"
  else if 85 ≤ score then "A-"
  else if 80 ≤ score then "B+"
  else if 75 ≤ score then "B"
  else if 70 ≤ score then "B-"
  else if 60 ≤ score then "C"
  else if 50 ≤ score then "D"
  else "F"

/-- The `component_scores` dict (fixed keys cpu, memory, temperature, latency, disk_io). -/
structure ComponentScores where
  cpu : ℚ
  memory : ℚ
  temperature : ℚ
  latency : ℚ
  disk_io : ℚ
deriving DecidableEq

/-- Return value of `HealthScorer.calculate_overall_health`. -/
structure HealthResult where
  overall_score : ℚ
  grade : String
  status : String
  component_scores : ComponentScores
  issues : List String
  recommendations : List String
  pod_count : ℕ
  taint_count : ℕ
deriving DecidableEq

/-- Embeds `HealthScorer.calculate_overall_health`. Numeric interpolation in the
issue strings is elided; everything else follows the source line by line. -/
def calculate_overall_health (node_data : NodeData) : HealthResult :=
  let cpu := node_data.cpu_usage.getD 0
  let cpu_score := calculate_component_health "cpu" cpu
  let issues1 : List String := if 80 < cpu then ["High CPU usage"] else []
  let recs1 : List String :=
    if 80 < cpu then ["Check running processes and consider scaling"] else []
  let memory := node_data.memory_usage.getD 0
  let memory_score := calculate_component_health "memory" memory
  let issues2 : List String := if 85 < memory then ["High memory usage"] else []
  let recs2 : List String :=
    if 85 < memory then ["Review container limits and optimize applications"] else []
  let temp := node_data.temperature.getD 50
  let temperature_score := calculate_component_health "temperature" temp
  let issues3 : List String := if 75 < temp then ["High temperature"] else []
  let recs3 : List String :=
    if 75 < temp then ["Improve cooling or check for thermal issues"] else []
  let latency := node_data.network_latency.getD 0
  let latency_score := calculate_component_health "latency" latency
  let issues4 : List String := if 30 < latency then ["High network latency"] else []
  let recs4 : List String :=
    if 30 < latency then ["Check network connectivity and bandwidth"] else []
  let disk := node_data.disk_io.getD 0
  let disk_io_score := calculate_component_health "disk_io" disk
  let issues5 : List String := if 75 < disk then ["High disk I/O"] else []
  let recs5 : List String :=
    if 75 < disk then ["Monitor disk operations and consider SSD upgrade"] else []
  let overall := cpu_score * WEIGHTS "cpu" + memory_score * WEIGHTS "memory"
    + temperature_score * WEIGHTS "temperature" + latency_score * WEIGHTS "latency"
    + disk_io_score * WEIGHTS "disk_io"
  let grade := score_to_grade overall
  let status := if 80 ≤ overall then "healthy" else if 50 ≤ overall then "degraded" else "critical"
  { overall_score := pyRound1 overall
    grade := grade
    status := status
    component_scores :=
      { cpu := cpu_score, memory := memory_score, temperature := temperature_score
        latency := latency_score, disk_io := disk_io_score }
    issues := issues1 ++ issues2 ++ issues3 ++ issues4 ++ issues5
    recommendations := recs1 ++ recs2 ++ recs3 ++ recs4 ++ recs5
    pod_count := node_data.pods.length
    taint_count := node_data.taints.length }

theorem component_health_mem (metric_name : String) (value : ℚ) :
    calculate_component_health metric_name value = 0 ∨
    calculate_component_health metric_name value = 25 ∨
    calculate_component_health metric_name value = 50 ∨
    calculate_component_health metric_name value = 100 := by
  unfold calculate_component_health
  dsimp only
  split_ifs <;> simp

theorem component_health_bounds (metric_name : String) (value : ℚ) :
    0 ≤ calculate_component_health metric_name value ∧
    calculate_component_health metric_name value ≤ 100 := by
  rcases component_health_mem metric_name value with h | h | h | h <;> rw [h] <;> norm_num

theorem overall_score_eq (d : NodeData) :
    (calculate_overall_health d).overall_score =
      pyRound1 ((calculate_overall_health d).component_scores.cpu * WEIGHTS "cpu"
        + (calculate_overall_health d).component_scores.memory * WEIGHTS "memory"
        + (calculate_overall_health d).component_scores.temperature * WEIGHTS "temperature"
        + (calculate_overall_health d).component_scores.latency * WEIGHTS "latency"
        + (calculate_overall_health d).component_scores.disk_io * WEIGHTS "disk_io") := rfl

theorem component_scores_eq (d : NodeData) :
    (calculate_overall_health d).component_scores =
      { cpu := calculate_component_health "cpu" (d.cpu_usage.getD 0)
        memory := calculate_component_health "memory" (d.memory_usage.getD 0)
        temperature := calculate_component_health "temperature" (d.temperature.getD 50)
        latency := calculate_component_health "latency" (d.network_latency.getD 0)
        disk_io := calculate_component_health "disk_io" (d.disk_io.getD 0) } := rfl

theorem weights_eval :
    WEIGHTS "cpu" = 25/100 ∧ WEIGHTS "memory" = 25/100 ∧ WEIGHTS "temperature" = 20/100
      ∧ WEIGHTS "latency" = 15/100 ∧ WEIGHTS "disk_io" = 15/100 :=
  ⟨rfl, rfl, rfl, rfl, rfl⟩

/-- C3: with the default weights (cpu 0.25, memory 0.25, temperature 0.20,
latency 0.15, disk_io 0.15, summing to 1), `overall_score` lies in [0, 100]
for every metric input, each component score is one of 0, 25, 50, 100 from
the 4-tier step function, and `overall_score` is the weighted sum of the
component scores rounded to one decimal. -/
theorem health_overall_score_bounds (d : NodeData) :
    (WEIGHTS "cpu" = 25/100 ∧ WEIGHTS "memory" = 25/100 ∧ WEIGHTS "temperature" = 20/100
      ∧ WEIGHTS "latency" = 15/100 ∧ WEIGHTS "disk_io" = 15/100
      ∧ WEIGHTS "cpu" + WEIGHTS "memory" + WEIGHTS "temperature"
          + WEIGHTS "latency" + WEIGHTS "disk_io" = 1)
    ∧ (0 ≤ (calculate_overall_health d).overall_score
        ∧ (calculate_overall_health d).overall_score ≤ 100)
    ∧ (calculate_overall_health d).component_scores.cpu ∈ ({0, 25, 50, 100} : Set ℚ)
    ∧ (calculate_overall_health d).component_scores.memory ∈ ({0, 25, 50, 100} : Set ℚ)
    ∧ (calculate_overall_health d).component_scores.temperature ∈ ({0, 25, 50, 100} : Set ℚ)
    ∧ (calculate_overall_health d).component_scores.latency ∈ ({0, 25, 50, 100} : Set ℚ)
    ∧ (calculate_overall_health d).component_scores.disk_io ∈ ({0, 25, 50, 100} : Set ℚ)
    ∧ (calculate_overall_health d).overall_score =
        pyRound1 ((calculate_overall_health d).component_scores.cpu * WEIGHTS "cpu"
          + (calculate_overall_health d).component_scores.memory * WEIGHTS "memory"
          + (calculate_overall_health d).component_scores.temperature * WEIGHTS "temperature"
          + (calculate_overall_health d).component_scores.latency * WEIGHTS "latency"
          + (calculate_overall_health d).component_scores.disk_io * WEIGHTS "disk_io") := by
  obtain ⟨w1, w2, w3, w4, w5⟩ := weights_eval
  have hcs := component_scores_eq d
  have b1 := component_health_bounds "cpu" (d.cpu_usage.getD 0)
  have b2 := component_health_bounds "memory" (d.memory_usage.getD 0)
  have b3 := component_health_bounds "temperature" (d.temperature.getD 50)
  have b4 := component_health_bounds "latency" (d.network_latency.getD 0)
  have b5 := component_health_bounds "disk_io" (d.disk_io.getD 0)
  have m1 := component_health_mem "cpu" (d.cpu_usage.getD 0)
  have m2 := component_health_mem "memory" (d.memory_usage.getD 0)
  have m3 := component_health_mem "temperature" (d.temperature.getD 50)
  have m4 := component_health_mem "latency" (d.network_latency.getD 0)
  have m5 := component_health_mem "disk_io" (d.disk_io.getD 0)
  refine ⟨⟨w1, w2, w3, w4, w5, by rw [w1, w2, w3, w4, w5]; norm_num⟩, ⟨?_, ?_⟩,
    ?_, ?_, ?_, ?_, ?_, overall_score_eq d⟩
  · rw [overall_score_eq d, hcs, w1, w2, w3, w4, w5]
    refine pyRound1_nonneg ?_
    have := b1.1; have := b2.1; have := b3.1; have := b4.1; have := b5.1
    dsimp only
    linarith
  · rw [overall_score_eq d, hcs, w1, w2, w3, w4, w5]
    refine pyRound1_le_hundred ?_
    have := b1.2; have := b2.2; have := b3.2; have := b4.2; have := b5.2
    dsimp only
    linarith
  · rw [hcs]; simpa [Set.mem_insert_iff] using m1
  · rw [hcs]; simpa [Set.mem_insert_iff] using m2
  · rw [hcs]; simpa [Set.mem_insert_iff] using m3
  · rw [hcs]; simpa [Set.mem_insert_iff] using m4
  · rw [hcs]; simpa [Set.mem_insert_iff] using m5

theorem pyRoundInt_intCast (n : ℤ) : pyRoundInt ((n : ℚ)) = n := by
  unfold pyRoundInt
  dsimp only
  rw [Int.floor_intCast, sub_self]
  norm_num

theorem thresholds_eval :
    THRESHOLDS "cpu" = ⟨90, 75, 50⟩ ∧ THRESHOLDS "memory" = ⟨90, 80, 60⟩
      ∧ THRESHOLDS "temperature" = ⟨85, 70, 50⟩ ∧ THRESHOLDS "latency" = ⟨50, 30, 10⟩
      ∧ THRESHOLDS "disk_io" = ⟨85, 70, 40⟩ :=
  ⟨rfl, rfl, rfl, rfl, rfl⟩

theorem empty_components_eval :
    calculate_component_health "cpu" 0 = 100 ∧ calculate_component_health "memory" 0 = 100
      ∧ calculate_component_health "temperature" 50 = 50
      ∧ calculate_component_health "latency" 0 = 100
      ∧ calculate_component_health "disk_io" 0 = 100 := by
  obtain ⟨t1, t2, t3, t4, t5⟩ := thresholds_eval
  refine ⟨?_, ?_, ?_, ?_, ?_⟩ <;> unfold calculate_component_health <;> dsimp only
  · rw [t1]; norm_num
  · rw [t2]; norm_num
  · rw [t3]; norm_num
  · rw [t4]; norm_num
  · rw [t5]; norm_num

/-- C10: the health scorer is total on partial metric dictionaries. A
missing cpu_usage, memory_usage, network_latency or disk_io entry is
scored as if it were 0 and a missing temperature entry as if it were 50,
so scoring never fails; scoring the empty dict yields overall_score 90.0
and status "healthy". -/
theorem health_scorer_defaults (d : NodeData) :
    calculate_overall_health d =
      calculate_overall_health
        { d with cpu_usage := some (d.cpu_usage.getD 0)
                 memory_usage := some (d.memory_usage.getD 0)
                 temperature := some (d.temperature.getD 50)
                 network_latency := some (d.network_latency.getD 0)
                 disk_io := some (d.disk_io.getD 0) }
    ∧ (calculate_overall_health {}).overall_score = 90
    ∧ (calculate_overall_health {}).status = "healthy" := by
  obtain ⟨w1, w2, w3, w4, w5⟩ := weights_eval
  obtain ⟨c1, c2, c3, c4, c5⟩ := empty_components_eval
  have htotal : calculate_component_health "cpu" 0 * WEIGHTS "cpu"
      + calculate_component_health "memory" 0 * WEIGHTS "memory"
      + calculate_component_health "temperature" 50 * WEIGHTS "temperature"
      + calculate_component_health "latency" 0 * WEIGHTS "latency"
      + calculate_component_health "disk_io" 0 * WEIGHTS "disk_io" = 90 := by
    rw [c1, c2, c3, c4, c5, w1, w2, w3, w4, w5]; norm_num
  refine ⟨?_, ?_, ?_⟩
  · simp only [calculate_overall_health, Option.getD_some]
  · rw [show (calculate_overall_health ({} : NodeData)).overall_score =
        pyRound1 (calculate_component_health "cpu" 0 * WEIGHTS "cpu"
          + calculate_component_health "memory" 0 * WEIGHTS "memory"
          + calculate_component_health "temperature" 50 * WEIGHTS "temperature"
          + calculate_component_health "latency" 0 * WEIGHTS "latency"
          + calculate_component_health "disk_io" 0 * WEIGHTS "disk_io") from rfl]
    rw [htotal, show (90 : ℚ) = ((90 : ℤ) : ℚ) by norm_num]
    unfold pyRound1
    rw [show (10 : ℚ) * ((90 : ℤ) : ℚ) = ((900 : ℤ) : ℚ) by norm_num, pyRoundInt_intCast]
    norm_num
  · rw [show (calculate_overall_health ({} : NodeData)).status =
        (if 80 ≤ calculate_component_health "cpu" 0 * WEIGHTS "cpu"
          + calculate_component_health "memory" 0 * WEIGHTS "memory"
          + calculate_component_health "temperature" 50 * WEIGHTS "temperature"
          + calculate_component_health "latency" 0 * WEIGHTS "latency"
          + calculate_component_health "disk_io" 0 * WEIGHTS "disk_io"
         then "healthy"
         else if 50 ≤ calculate_component_health "cpu" 0 * WEIGHTS "cpu"
          + calculate_component_health "memory" 0 * WEIGHTS "memory"
          + calculate_component_health "temperature" 50 * WEIGHTS "temperature"
          + calculate_component_health "latency" 0 * WEIGHTS "latency"
          + calculate_component_health "disk_io" 0 * WEIGHTS "disk_io"
         then "degraded" else "critical") from rfl]
    rw [htotal]
    norm_num

end HealthScorer

namespace MLDecisionEngine

/-- Embeds `self.risk_threshold = 0.65`. -/
def risk_threshold : ℚ := 65/100

/-- Return value of `MLDecisionEngine.predict_degradation`. -/
structure RiskAssessment where
  is_at_risk : Bool
  risk_score : ℚ
  risk_factors : List String
  confidence : ℚ
  recommendation : String
deriving DecidableEq

/-- Abstraction of the sklearn gradient-boosting pipeline
(`_calculate_risk_score` via `model.predict_proba`): an external scoring
function that may raise, modelled as `Except`. -/
structure MLModel where
  score : List ℚ → Except String ℚ

/-- Embeds `MLDecisionEngine._extract_features`. -/
def extract_features (node_data : NodeData) : List ℚ :=
  [node_data.cpu_usage.getD 0 / 100,
   node_data.memory_usage.getD 0 / 100,
   node_data.temperature.getD 50 / 100,
   node_data.network_latency.getD 0 / 50,
   node_data.disk_io.getD 0 / 100,
   (node_data.pods.length : ℚ) / 20]

/-- The per-metric factor checks of `MLDecisionEngine._identify_risk_factors`
(`factors` as built before the generic-factor fallback). Numeric
interpolation in the factor strings is elided; the fixed message prefixes
are kept. -/
def base_risk_factors (node_data : NodeData) : List String :=
  (if 80 < node_data.cpu_usage.getD 0 then ["High CPU"] else [])
  ++ (if 85 < node_data.memory_usage.getD 0 then ["Memory Pressure"] else [])
  ++ (if 75 < node_data.temperature.getD 50 then ["High Temperature"] else [])
  ++ (if 30 < node_data.network_latency.getD 0 then ["Network Latency"] else [])
  ++ (if 70 < node_data.disk_io.getD 0 then ["High Disk I/O"] else [])
  ++ (if 15 < node_data.pods.length then ["High Pod Density"] else [])

/-- Embeds `MLDecisionEngine._identify_risk_factors`: the per-metric factors plus
the generic fallback appended when the node is at risk with no factor fired. -/
def identify_risk_factors (node_data : NodeData) (risk_score : ℚ) : List String :=
  let factors := base_risk_factors node_data
  if risk_threshold < risk_score ∧ factors = [] then factors ++ ["Anomalous Pattern Detected"]
  else factors

theorem identify_risk_factors_ne_nil (node_data : NodeData) (risk_score : ℚ)
    (h : risk_threshold < risk_score) : identify_risk_factors node_data risk_score ≠ [] := by
  unfold identify_risk_factors
  dsimp only
  by_cases hc : risk_threshold < risk_score ∧ base_risk_factors node_data = []
  · rw [if_pos hc]; simp
  · rw [if_neg hc]
    intro hemp
    exact hc ⟨h, hemp⟩

/-- Embeds `MLDecisionEngine._get_recommendation` (message interpolation elided). -/
def get_recommendation (risk_score : ℚ) (risk_factors : List String) : String :=
  if risk_threshold < risk_score then "CRITICAL: Initiate workload migration"
  else if 1/2 < risk_score then "CAUTION: Monitor closely"
  else "HEALTHY: Node operating normally"

/-- Embeds `MLDecisionEngine.predict_degradation`: the try block computes features,
risk score, factors and the assessment; the except branch returns the safe
default. -/
def predict_degradation (model : MLModel) (node_data : NodeData) : RiskAssessment :=
  match model.score (extract_features node_data) with
  | Except.ok risk_score =>
      let risk_factors := identify_risk_factors node_data risk_score
      { is_at_risk := decide (risk_threshold < risk_score)
        risk_score := risk_score
        risk_factors := risk_factors
        confidence := min 100 (risk_score * 100 / (1/2))
        recommendation := get_recommendation risk_score risk_factors }
  | Except.error _ =>
      { is_at_risk := false
        risk_score := 0
        risk_factors := ["prediction_error"]
        confidence := 0
        recommendation := "Unable to predict - Error in ML pipeline" }

/-- C4: whenever the internal computation (the external model pipeline)
raises, `predict_degradation` swallows the error and returns the safe
default assessment: not at risk, risk_score 0, a "prediction_error"
factor, confidence 0. -/
theorem predict_degradation_fail_soft (model : MLModel) (node_data : NodeData) (e : String)
    (h : model.score (extract_features node_data) = Except.error e) :
    predict_degradation model node_data =
      { is_at_risk := false, risk_score := 0, risk_factors := ["prediction_error"],
        confidence := 0, recommendation := "Unable to predict - Error in ML pipeline" } := by
  unfold predict_degradation
  rw [h]

theorem predict_degradation_fail_soft_witness :
    (MLModel.mk fun _ => Except.error "model fault").score (extract_features {})
        = Except.error "model fault"
    ∧ predict_degradation (MLModel.mk fun _ => Except.error "model fault") {} =
      { is_at_risk := false, risk_score := 0, risk_factors := ["prediction_error"],
        confidence := 0, recommendation := "Unable to predict - Error in ML pipeline" } :=
  ⟨rfl, predict_degradation_fail_soft (MLModel.mk fun _ => Except.error "model fault") {}
    "model fault" rfl⟩

/-- C9: no at-risk assessment is evidence-free. Whenever
`predict_degradation` reports `is_at_risk = true` (for any model outcome,
the internal-error path included), the returned `risk_factors` list is
non-empty: if no per-metric factor fired, the generic anomalous-pattern
factor was appended. -/
theorem at_risk_has_factors (model : MLModel) (node_data : NodeData)
    (h : (predict_degradation model node_data).is_at_risk = true) :
    (predict_degradation model node_data).risk_factors ≠ [] := by
  unfold predict_degradation at h ⊢
  cases hm : model.score (extract_features node_data) with
  | error e => rw [hm] at h; simp at h
  | ok rs =>
      rw [hm] at h
      dsimp only at h ⊢
      have hrs : risk_threshold < rs := of_decide_eq_true h
      exact identify_risk_factors_ne_nil node_data rs hrs

theorem at_risk_has_factors_witness :
    (predict_degradation (MLModel.mk fun _ => Except.ok 1) {}).is_at_risk = true
    ∧ (predict_degradation (MLModel.mk fun _ => Except.ok 1) {}).risk_factors ≠ [] := by
  have h : (predict_degradation (MLModel.mk fun _ => Except.ok 1) ({} : NodeData)).is_at_risk
      = true := by
    rw [show (predict_degradation (MLModel.mk fun _ => Except.ok 1) ({} : NodeData)).is_at_risk
        = decide (risk_threshold < 1) from rfl]
    simp only [decide_eq_true_eq]
    unfold risk_threshold
    norm_num
  exact ⟨h, at_risk_has_factors (MLModel.mk fun _ => Except.ok 1) {} h⟩

end MLDecisionEngine

/-- Semantics of `collections.deque(maxlen).appendleft`: the newest element
sits at the head and overflow evicts from the tail, where the oldest sits. -/
def dequeAppendLeft {α : Type} (maxlen : ℕ) (xs : List α) (x : α) : List α :=
  (x :: xs).take maxlen

/-- Semantics of `collections.deque(maxlen).append`: the newest element sits
at the tail and overflow evicts from the head, where the oldest sits. -/
def dequeAppendRight {α : Type} (maxlen : ℕ) (xs : List α) (x : α) : List α :=
  if maxlen < (xs ++ [x]).length then (xs ++ [x]).drop ((xs ++ [x]).length - maxlen)
  else xs ++ [x]

/-- Semantics of the Python slice `l[-m:]` (note `l[-0:]` is all of `l`). -/
def pyTailSlice {α : Type} (m : ℕ) (l : List α) : List α :=
  if m = 0 then l else l.drop (l.length - m)

theorem take_append_take {α : Type} (c : ℕ) (a b : List α) :
    (a ++ b.take c).take c = (a ++ b).take c := by
  rw [List.take_append_eq_append_take, List.take_append_eq_append_take, List.take_take,
    Nat.min_eq_left (Nat.sub_le c a.length)]

theorem rtake_append_rtake {α : Type} (c : ℕ) (a b : List α) :
    (a.rtake c ++ b).rtake c = (a ++ b).rtake c := by
  have h1 : ∀ l : List α, l.rtake c = (l.reverse.take c).reverse := fun l =>
    List.rtake_eq_reverse_take_reverse l c
  rw [h1 (a.rtake c ++ b), h1 (a ++ b), List.reverse_append, List.reverse_append,
    h1 a, List.reverse_reverse, take_append_take]

theorem dequeAppendRight_eq_rtake {α : Type} (c : ℕ) (xs : List α) (x : α) :
    dequeAppendRight c xs x = (xs ++ [x]).rtake c := by
  unfold dequeAppendRight List.rtake
  split_ifs with h
  · rfl
  · rw [Nat.sub_eq_zero_of_le (by omega), List.drop_zero]

theorem length_dequeAppendRight_le {α : Type} (c : ℕ) (xs : List α) (x : α) :
    (dequeAppendRight c xs x).length ≤ c := by
  rw [dequeAppendRight_eq_rtake]
  unfold List.rtake
  simp only [List.length_drop]
  omega

theorem foldl_dequeAppendRight {α : Type} (c : ℕ) (l : List α) :
    ∀ s : List α, s.length ≤ c →
      l.foldl (dequeAppendRight c) s = (s ++ l).rtake c := by
  induction l with
  | nil =>
      intro s hs
      simp only [List.foldl_nil, List.append_nil]
      unfold List.rtake
      rw [Nat.sub_eq_zero_of_le hs, List.drop_zero]
  | cons x xs ih =>
      intro s hs
      rw [List.foldl_cons, ih _ (length_dequeAppendRight_le c s x),
        dequeAppendRight_eq_rtake, rtake_append_rtake]
      simp

theorem length_rtake_of_le {α : Type} (c : ℕ) (l : List α) (h : c ≤ l.length) :
    (l.rtake c).length = c := by
  unfold List.rtake
  simp only [List.length_drop]
  omega

theorem foldl_dequeAppendLeft {α : Type} (c : ℕ) (l : List α) :
    ∀ s : List α, s.length ≤ c →
      l.foldl (dequeAppendLeft c) s = (l.reverse ++ s).take c := by
  induction l with
  | nil =>
      intro s hs
      simp only [List.foldl_nil, List.reverse_nil, List.nil_append]
      exact (List.take_of_length_le hs).symm
  | cons x xs ih =>
      intro s hs
      have hlen : (dequeAppendLeft c s x).length ≤ c := by
        unfold dequeAppendLeft
        simp only [List.length_take]
        omega
      rw [List.foldl_cons, ih _ hlen]
      unfold dequeAppendLeft
      rw [take_append_take]
      simp

/-- An event record as built by `EventManager.add_event` (uuid, wall-clock
timestamp and `timeString` elided as environment inputs). -/
structure Event where
  type : String
  title : String
  description : String
  nodeId : Option String
  details : List (String × String)
deriving DecidableEq

/-- The `event_data` dict argument of `add_event`; absent keys are `none`. -/
structure EventData where
  type : Option String := none
  title : Option String := none
  description : Option String := none
  nodeId : Option String := none
  details : Option (List (String × String)) := none
deriving DecidableEq

/-- The event dict constructed inside `EventManager.add_event`, with the
defaults of each `event_data.get`. -/
def mkEvent (event_data : EventData) : Event :=
  { type := event_data.type.getD "info"
    title := event_data.title.getD "Unknown Event"
    description := event_data.description.getD ""
    nodeId := event_data.nodeId
    details := event_data.details.getD [] }

/-- The `event_stats` dict of `EventManager` (`total` plus `by_type`). -/
structure EventStats where
  total : ℕ
  risk : ℕ
  action : ℕ
  info : ℕ
deriving DecidableEq

/-- State of `EventManager`: `self.events = deque(maxlen=max_events)` (newest first,
via `appendleft`) and `self.event_stats`; `max_events` defaults to 200. -/
structure EventManager where
  max_events : ℕ
  events : List Event
  event_stats : EventStats
deriving DecidableEq

/-- Embeds `EventManager.__init__(max_events)`. -/
def EventManager.init (max_events : ℕ) : EventManager :=
  { max_events := max_events, events := [], event_stats := ⟨0, 0, 0, 0⟩ }

/-- Embeds `EventManager.add_event`: build the event, `appendleft` it on the bounded
deque, and bump `total` plus the matching `by_type` counter. -/
def EventManager.add_event (self : EventManager) (event_data : EventData) : EventManager :=
  let event := mkEvent event_data
  let events := dequeAppendLeft self.max_events self.events event
  let stats0 := { self.event_stats with total := self.event_stats.total + 1 }
  let stats :=
    if event.type = "risk" then { stats0 with risk := stats0.risk + 1 }
    else if event.type = "action" then { stats0 with action := stats0.action + 1 }
    else if event.type = "info" then { stats0 with info := stats0.info + 1 }
    else stats0
  { self with events := events, event_stats := stats }

/-- An audit log entry (wall-clock timestamps elided). -/
structure AuditEntry where
  action : String
  resource : String
  actor : String
  status : String
  details : List (String × String)
deriving DecidableEq

/-- State of `AuditLogger`: plain list `audit_log` (oldest first) truncated to the
last `max_records` on overflow; `max_records` defaults to 100000. -/
structure AuditLogger where
  max_records : ℕ
  audit_log : List AuditEntry
deriving DecidableEq

/-- Embeds `AuditLogger.__init__(max_records)`. -/
def AuditLogger.init (max_records : ℕ) : AuditLogger :=
  { max_records := max_records, audit_log := [] }

/-- Embeds `AuditLogger.log_action`: append the entry, then keep only the last
`max_records` records (`self.audit_log[-self.max_records:]`) when over
capacity. Python defaults: `actor='system'`, `status='success'`,
`details=None` (empty dict). -/
def AuditLogger.log_action (self : AuditLogger) (action_type resource actor status : String)
    (details : List (String × String)) : AuditLogger :=
  let entry : AuditEntry := ⟨action_type, resource, actor, status, details⟩
  let log := self.audit_log ++ [entry]
  { self with
    audit_log := if self.max_records < log.length then pyTailSlice self.max_records log else log }

/-- One record of the global `metrics_history` ring of `AnalyticsEngine`
(timestamp elided). -/
structure MetricsEntry where
  node_id : String
  metrics : NodeData
  risk_score : ℚ

/-- One record of a per-node `node_health_history` ring (timestamp elided). -/
structure NodeHistEntry where
  risk_score : ℚ

/-- State of `AnalyticsEngine`: global `metrics_history = deque(maxlen=max_history)`
(default 10000) and the `node_health_history` dict of per-node
`deque(maxlen=500)` rings, modelled as a partial map. -/
structure AnalyticsEngine where
  max_history : ℕ
  metrics_history : List MetricsEntry
  node_health_history : String → Option (List NodeHistEntry)

/-- Embeds `AnalyticsEngine.__init__(max_history)`. -/
def AnalyticsEngine.init (max_history : ℕ) : AnalyticsEngine :=
  { max_history := max_history, metrics_history := [], node_health_history := fun _ => none }

/-- The ring stored for a node, empty when the node has no entry yet. -/
def AnalyticsEngine.nodeRing (self : AnalyticsEngine) (node_id : String) : List NodeHistEntry :=
  (self.node_health_history node_id).getD []

/-- Embeds `AnalyticsEngine.record_metrics`: append to the bounded global ring, and
append to the node's bounded ring (creating it when absent). -/
def AnalyticsEngine.record_metrics (self : AnalyticsEngine) (node_id : String)
    (metrics : NodeData) (risk_score : ℚ) : AnalyticsEngine :=
  let entry : MetricsEntry := ⟨node_id, metrics, risk_score⟩
  let current := (self.node_health_history node_id).getD []
  let ring := dequeAppendRight 500 current ⟨risk_score⟩
  { self with
    metrics_history := dequeAppendRight self.max_history self.metrics_history entry
    node_health_history := fun q => if q = node_id then some ring else self.node_health_history q }

theorem foldl_add_event (evs : List EventData) :
    ∀ m : EventManager, m.events.length ≤ m.max_events →
      (evs.foldl EventManager.add_event m).events
        = ((evs.map mkEvent).reverse ++ m.events).take m.max_events := by
  induction evs with
  | nil =>
      intro m hm
      simp only [List.foldl_nil, List.map_nil, List.reverse_nil, List.nil_append]
      exact (List.take_of_length_le hm).symm
  | cons e evs ih =>
      intro m hm
      have hlen : (m.add_event e).events.length ≤ (m.add_event e).max_events := by
        show (dequeAppendLeft m.max_events m.events (mkEvent e)).length ≤ m.max_events
        unfold dequeAppendLeft
        simp only [List.length_take]
        omega
      rw [List.foldl_cons, ih _ hlen]
      show ((evs.map mkEvent).reverse ++ dequeAppendLeft m.max_events m.events (mkEvent e)).take
        m.max_events = _
      unfold dequeAppendLeft
      rw [take_append_take]
      simp

theorem foldl_log_action (entries : List AuditEntry) :
    ∀ a : AuditLogger, 0 < a.max_records → a.audit_log.length ≤ a.max_records →
      (entries.foldl (fun a e => a.log_action e.action e.resource e.actor e.status e.details)
          a).audit_log
        = (a.audit_log ++ entries).rtake a.max_records := by
  induction entries with
  | nil =>
      intro a hpos hlen
      simp only [List.foldl_nil, List.append_nil]
      unfold List.rtake
      rw [Nat.sub_eq_zero_of_le hlen, List.drop_zero]
  | cons e entries ih =>
      intro a hpos hlen
      have hstep : (a.log_action e.action e.resource e.actor e.status e.details).audit_log
          = (a.audit_log ++ [e]).rtake a.max_records := by
        show (if a.max_records < (a.audit_log ++ [e]).length
            then pyTailSlice a.max_records (a.audit_log ++ [e]) else a.audit_log ++ [e])
          = (a.audit_log ++ [e]).rtake a.max_records
        unfold pyTailSlice List.rtake
        split_ifs with h1 h2
        · omega
        · rfl
        · rw [Nat.sub_eq_zero_of_le (by omega), List.drop_zero]
      have hmax : (a.log_action e.action e.resource e.actor e.status e.details).max_records
          = a.max_records := rfl
      have hlen2 : (a.log_action e.action e.resource e.actor e.status e.details).audit_log.length
          ≤ a.max_records := by
        rw [hstep]
        unfold List.rtake
        simp only [List.length_drop]
        omega
      rw [List.foldl_cons, ih _ (by rw [hmax]; exact hpos) (by rw [hmax]; exact hlen2), hmax,
        hstep, rtake_append_rtake]
      simp

theorem foldl_record_metrics (recs : List (String × NodeData × ℚ)) :
    ∀ an : AnalyticsEngine, an.metrics_history.length ≤ an.max_history →
      ((recs.foldl (fun an p => an.record_metrics p.1 p.2.1 p.2.2) an)).metrics_history
        = (an.metrics_history ++ recs.map (fun p => MetricsEntry.mk p.1 p.2.1 p.2.2)).rtake
            an.max_history := by
  induction recs with
  | nil =>
      intro an hlen
      simp only [List.foldl_nil, List.map_nil, List.append_nil]
      unfold List.rtake
      rw [Nat.sub_eq_zero_of_le hlen, List.drop_zero]
  | cons r recs ih =>
      intro an hlen
      have hstep : (an.record_metrics r.1 r.2.1 r.2.2).metrics_history
          = dequeAppendRight an.max_history an.metrics_history ⟨r.1, r.2.1, r.2.2⟩ := rfl
      have hmax : (an.record_metrics r.1 r.2.1 r.2.2).max_history = an.max_history := rfl
      have hlen2 : (an.record_metrics r.1 r.2.1 r.2.2).metrics_history.length
          ≤ an.max_history := by
        rw [hstep]; exact length_dequeAppendRight_le ..
      rw [List.foldl_cons, ih _ (by rw [hmax]; exact hlen2), hmax, hstep,
        dequeAppendRight_eq_rtake, rtake_append_rtake]
      simp

theorem length_rtake_le {α : Type} (c : ℕ) (l : List α) : (l.rtake c).length ≤ c := by
  unfold List.rtake
  simp only [List.length_drop]
  omega

theorem log_action_audit_log (a : AuditLogger) (e : AuditEntry) (hpos : 0 < a.max_records) :
    (a.log_action e.action e.resource e.actor e.status e.details).audit_log
      = (a.audit_log ++ [e]).rtake a.max_records := by
  show (if a.max_records < (a.audit_log ++ [e]).length
      then pyTailSlice a.max_records (a.audit_log ++ [e]) else a.audit_log ++ [e])
    = (a.audit_log ++ [e]).rtake a.max_records
  unfold pyTailSlice List.rtake
  split_ifs with h1 h2
  · omega
  · rfl
  · rw [Nat.sub_eq_zero_of_le (by omega), List.drop_zero]

theorem record_metrics_nodeRing (an : AnalyticsEngine) (node_id : String) (metrics : NodeData)
    (risk_score : ℚ) :
    (an.record_metrics node_id metrics risk_score).nodeRing node_id
      = (an.nodeRing node_id ++ [NodeHistEntry.mk risk_score]).rtake 500 := by
  show (if node_id = node_id
      then some (dequeAppendRight 500 ((an.node_health_history node_id).getD [])
        (NodeHistEntry.mk risk_score))
      else an.node_health_history node_id).getD []
    = (an.nodeRing node_id ++ [NodeHistEntry.mk risk_score]).rtake 500
  rw [if_pos rfl, Option.getD_some, dequeAppendRight_eq_rtake]
  rfl

/-- C5: every bounded ring or log — the event log, the audit log, the
global metrics ring, the per-node history rings — never exceeds its
configured capacity, and inserting capacity+1 entries into the empty
structure evicts exactly the oldest entry (FIFO), leaving the newest
`capacity` entries with size exactly `capacity`. -/
theorem bounded_rings_fifo (c : ℕ) (hc : 0 < c)
    (evs : List EventData) (hevs : evs.length = c + 1)
    (entries : List AuditEntry) (hentries : entries.length = c + 1)
    (recs : List (String × NodeData × ℚ)) (hrecs : recs.length = c + 1) :
    (∀ (m : EventManager) (e : EventData),
        (m.add_event e).events.length ≤ m.max_events)
    ∧ (∀ (a : AuditLogger) (e : AuditEntry), 0 < a.max_records →
        (a.log_action e.action e.resource e.actor e.status e.details).audit_log.length
          ≤ a.max_records)
    ∧ (∀ (an : AnalyticsEngine) (nid : String) (nd : NodeData) (rs : ℚ),
        (an.record_metrics nid nd rs).metrics_history.length ≤ an.max_history)
    ∧ (∀ (an : AnalyticsEngine) (nid qid : String) (nd : NodeData) (rs : ℚ),
        (an.nodeRing qid).length ≤ 500 →
        ((an.record_metrics nid nd rs).nodeRing qid).length ≤ 500)
    ∧ (evs.foldl EventManager.add_event (EventManager.init c)).events
        = ((evs.drop 1).map mkEvent).reverse
    ∧ (evs.foldl EventManager.add_event (EventManager.init c)).events.length = c
    ∧ (entries.foldl (fun a e => a.log_action e.action e.resource e.actor e.status e.details)
        (AuditLogger.init c)).audit_log = entries.drop 1
    ∧ (entries.foldl (fun a e => a.log_action e.action e.resource e.actor e.status e.details)
        (AuditLogger.init c)).audit_log.length = c
    ∧ (recs.foldl (fun an p => an.record_metrics p.1 p.2.1 p.2.2)
        (AnalyticsEngine.init c)).metrics_history
        = (recs.drop 1).map (fun p => MetricsEntry.mk p.1 p.2.1 p.2.2)
    ∧ (recs.foldl (fun an p => an.record_metrics p.1 p.2.1 p.2.2)
        (AnalyticsEngine.init c)).metrics_history.length = c
    ∧ (∀ (an : AnalyticsEngine) (nid : String) (nd : NodeData) (rs : ℚ),
        (an.record_metrics nid nd rs).nodeRing nid
          = (an.nodeRing nid ++ [NodeHistEntry.mk rs]).rtake 500) := by
  have hev : (evs.foldl EventManager.add_event (EventManager.init c)).events
      = ((evs.drop 1).map mkEvent).reverse := by
    rw [foldl_add_event evs (EventManager.init c) (by simp [EventManager.init])]
    show ((evs.map mkEvent).reverse ++ []).take c = _
    rw [List.append_nil, List.take_reverse]
    have hlm : (evs.map mkEvent).length - c = 1 := by
      rw [List.length_map, hevs]
      omega
    rw [hlm, ← List.map_drop]
  have haud : (entries.foldl
      (fun a e => a.log_action e.action e.resource e.actor e.status e.details)
      (AuditLogger.init c)).audit_log = entries.drop 1 := by
    rw [foldl_log_action entries (AuditLogger.init c) hc (by simp [AuditLogger.init])]
    show (([] : List AuditEntry) ++ entries).rtake c = entries.drop 1
    rw [List.nil_append]
    unfold List.rtake
    rw [hentries, Nat.add_sub_cancel_left]
  have hrec : (recs.foldl (fun an p => an.record_metrics p.1 p.2.1 p.2.2)
      (AnalyticsEngine.init c)).metrics_history
      = (recs.drop 1).map (fun p => MetricsEntry.mk p.1 p.2.1 p.2.2) := by
    rw [foldl_record_metrics recs (AnalyticsEngine.init c) (by simp [AnalyticsEngine.init])]
    show (([] : List MetricsEntry)
        ++ recs.map (fun p => MetricsEntry.mk p.1 p.2.1 p.2.2)).rtake c = _
    rw [List.nil_append]
    unfold List.rtake
    have hlm : (recs.map (fun p => MetricsEntry.mk p.1 p.2.1 p.2.2)).length - c = 1 := by
      rw [List.length_map, hrecs]
      omega
    rw [hlm, ← List.map_drop]
  refine ⟨?_, ?_, ?_, ?_, hev, ?_, haud, ?_, hrec, ?_, ?_⟩
  · intro m e
    show (dequeAppendLeft m.max_events m.events (mkEvent e)).length ≤ m.max_events
    unfold dequeAppendLeft
    simp only [List.length_take]
    omega
  · intro a e hpos
    rw [log_action_audit_log a e hpos]
    exact length_rtake_le ..
  · intro an nid nd rs
    exact length_dequeAppendRight_le ..
  · intro an nid qid nd rs hq
    by_cases h : qid = nid
    · subst h
      rw [record_metrics_nodeRing]
      exact length_rtake_le ..
    · show ((if qid = nid then _ else an.node_health_history qid).getD []).length ≤ 500
      rw [if_neg h]
      exact hq
  · rw [hev]
    simp only [List.length_reverse, List.length_map, List.length_drop, hevs]
    omega
  · rw [haud]
    simp only [List.length_drop, hentries]
    omega
  · rw [hrec]
    simp only [List.length_map, List.length_drop, hrecs]
    omega
  · intro an nid nd rs
    exact record_metrics_nodeRing an nid nd rs

/-- Concrete inputs for the C5 witness: three event payloads, three audit
entries, three metric records against capacity 2. -/
def evsW : List EventData :=
  [{ title := some "first" }, { title := some "second" }, { title := some "third" }]

def entsW : List AuditEntry :=
  [⟨"TAINT", "node", "system", "success", []⟩,
   ⟨"MIGRATE", "pods", "system", "success", []⟩,
   ⟨"DRAIN", "node", "system", "success", []⟩]

def recsW : List (String × NodeData × ℚ) :=
  [("node-01", {}, 0), ("node-02", {}, 0), ("node-03", {}, 0)]

theorem bounded_rings_fifo_witness :
    (0 < 2 ∧ evsW.length = 2 + 1 ∧ entsW.length = 2 + 1 ∧ recsW.length = 2 + 1)
    ∧ (evsW.foldl EventManager.add_event (EventManager.init 2)).events
        = ((evsW.drop 1).map mkEvent).reverse
    ∧ (entsW.foldl (fun a e => a.log_action e.action e.resource e.actor e.status e.details)
        (AuditLogger.init 2)).audit_log = entsW.drop 1
    ∧ (recsW.foldl (fun an p => an.record_metrics p.1 p.2.1 p.2.2)
        (AnalyticsEngine.init 2)).metrics_history
        = (recsW.drop 1).map (fun p => MetricsEntry.mk p.1 p.2.1 p.2.2) :=
  have h := bounded_rings_fifo 2 (by decide) evsW (by decide) entsW (by decide) recsW (by decide)
  ⟨⟨by decide, by decide, by decide, by decide⟩,
    h.2.2.2.2.1, h.2.2.2.2.2.2.1, h.2.2.2.2.2.2.2.2.1⟩

/-- Return value of `AnalyticsEngine.get_risk_statistics`. `np.std` is an
irrational square root, so it is represented by its square, the population
variance (`std_dev` in the source is the square root of this field); no
claim inspects the standard deviation itself. -/
structure RiskStatistics where
  average_risk : ℚ
  max_risk : ℚ
  min_risk : ℚ
  variance : ℚ
  critical_events : ℕ
  total_events : ℕ

/-- Embeds `AnalyticsEngine.get_risk_statistics`: zeros on an empty history, else
mean/max/min/population-variance over the recorded risk scores,
`critical_events` counting scores strictly above 0.75 and `total_events`
the ring size. -/
def AnalyticsEngine.get_risk_statistics (self : AnalyticsEngine) : RiskStatistics :=
  if self.metrics_history.isEmpty then
    { average_risk := 0, max_risk := 0, min_risk := 0, variance := 0
      critical_events := 0, total_events := 0 }
  else
    let scores := self.metrics_history.map (fun e => e.risk_score)
    let mean := scores.sum / scores.length
    { average_risk := mean
      max_risk := scores.foldl max (scores.headD 0)
      min_risk := scores.foldl min (scores.headD 0)
      variance := (scores.map (fun s => (s - mean) ^ 2)).sum / scores.length
      critical_events := (scores.filter (fun s => decide (75/100 < s))).length
      total_events := scores.length }

/-- Concrete input refuting C8: a single recorded risk score of exactly 0.75. -/
def statsEngineAtThreshold : AnalyticsEngine :=
  { max_history := 10000
    metrics_history := [⟨"node-01", {}, 75/100⟩]
    node_health_history := fun _ => none }

/-- C8 counterexample: the code counts critical events with a strict
comparison `s > 0.75`, so a recorded risk score of exactly 0.75 — which
satisfies the claimed `≥ 0.75` — is not counted: `critical_events` is 0,
not 1, on a history holding exactly that score. -/
theorem risk_statistics_threshold_counterexample :
    ((75 : ℚ)/100 ≤ 75/100)
    ∧ statsEngineAtThreshold.metrics_history.length = 1
    ∧ (statsEngineAtThreshold.get_risk_statistics).critical_events = 0 := by
  have hlt : ¬ ((75 : ℚ)/100 < 75/100) := lt_irrefl _
  refine ⟨le_refl _, rfl, ?_⟩
  unfold AnalyticsEngine.get_risk_statistics
  simp [statsEngineAtThreshold, List.filter, hlt]

/-- C8 amended: `critical_events` is the count of recorded risk scores
STRICTLY greater than 0.75 (a score of exactly 0.75 is not counted), and
`total_events` is the number of recorded scores. -/
theorem risk_statistics_critical_strict (an : AnalyticsEngine) :
    (an.get_risk_statistics).critical_events
      = ((an.metrics_history.map (fun e => e.risk_score)).filter
          (fun s => decide (75/100 < s))).length
    ∧ (an.get_risk_statistics).total_events = an.metrics_history.length := by
  unfold AnalyticsEngine.get_risk_statistics
  cases hl : an.metrics_history with
  | nil => simp
  | cons x xs => simp

/-- Python's `str.split(sep)` for a one-character separator, over the
character list of the string. -/
def pySplit (sep : Char) : List Char → List (List Char)
  | [] => [[]]
  | c :: rest =>
      let r := pySplit sep rest
      if c = sep then [] :: r
      else (c :: r.headD []) :: r.tail

/-- Python's `v or 'true'` for an optional string (`None` and the empty
string are falsy). -/
def pyOrTrue (v : Option String) : String :=
  match v with
  | none => "true"
  | some s => if s = "" then "true" else s

/-- A Kubernetes node as read and patched by `KubernetesManager`
(`node.metadata.name` and `node.spec.taints`). -/
structure K8sNodeState where
  name : String
  taints : List Taint
deriving DecidableEq

namespace KubernetesManager

/-- Embeds `KubernetesManager.taint_node`: parse `"key=value:effect"`
(`key, effect = taint_spec.split(':')` raises unless exactly two parts;
`key_value` defaults to `'true'` when no `=` part), build the taint, and
UNCONDITIONALLY append it to the node's existing taints. Errors propagate
(the except branch re-raises). -/
def taint_node (node : K8sNodeState) (taint_spec : List Char) : Except String K8sNodeState :=
  match pySplit ':' taint_spec with
  | [key, effect] =>
      let key_val := pySplit '=' key
      let key_name := key_val.headD []
      let key_value := key_val.getD 1 "true".data
      let new_taint : Taint := ⟨String.mk key_name, String.mk key_value, String.mk effect⟩
      Except.ok { node with taints := node.taints ++ [new_taint] }
  | _ => Except.error "ValueError: not enough values to unpack"

end KubernetesManager

/-- The taint parsing of the demo-mode `/api/nodes/<id>/taint` route:
`key_val, effect = taint.split(':')` with fallback
`(taint, 'true', 'NoSchedule')` on failure, then
`k, v = (key_val.split('=') + [None])[:2]`. -/
def parse_demo_taint (taint : List Char) : String × Option String × String :=
  match pySplit ':' taint with
  | [key_val, effect] =>
      let parts := pySplit '=' key_val
      (String.mk (parts.headD []), (parts[1]?).map String.mk, String.mk effect)
  | _ => (String.mk taint, some "true", "NoSchedule")

/-- The demo-mode taint update: append `{'key': k, 'value': v or 'true',
'effect': effect}` only when no existing taint carries key `k`. -/
def apply_demo_taint (node : NodeData) (k : String) (v : Option String) (effect : String) :
    NodeData :=
  if (node.taints.filter fun t => decide (t.key = k)).isEmpty then
    { node with taints := node.taints ++ [⟨k, pyOrTrue v, effect⟩] }
  else node

/-- The demo-mode branch of the `taint_node` route in `app.py`: parse the
taint spec and apply it to the persistent demo node. -/
def taint_node_demo (node : NodeData) (taint : List Char) : NodeData :=
  let p := parse_demo_taint taint
  apply_demo_taint node p.1 p.2.1 p.2.2

theorem apply_demo_taint_idem (node : NodeData) (k : String) (v : Option String)
    (effect : String) :
    apply_demo_taint (apply_demo_taint node k v effect) k v effect
      = apply_demo_taint node k v effect := by
  unfold apply_demo_taint
  by_cases h : (node.taints.filter fun t => decide (t.key = k)).isEmpty
  · rw [if_pos h]
    have h2 : ¬ ((node.taints ++ [(⟨k, pyOrTrue v, effect⟩ : Taint)]).filter
        fun t => decide (t.key = k)).isEmpty := by
      simp [List.filter_append]
    simp only
    rw [if_neg h2]
  · rw [if_neg h, if_neg h]

/-- The node used by the C1 counterexample: no taints yet. -/
def plainK8sNode : K8sNodeState := ⟨"node-01", []⟩

/-- C1 counterexample: on the Kubernetes backend path, applying the taint
spec `degradation=true:NoSchedule` twice in sequence to the same node
succeeds both times and leaves TWO taint entries with key "degradation",
not one — `KubernetesManager.taint_node` appends unconditionally, with no
per-key no-op. -/
theorem taint_node_duplicate_counterexample :
    (KubernetesManager.taint_node plainK8sNode "degradation=true:NoSchedule".data).bind
        (fun n => KubernetesManager.taint_node n "degradation=true:NoSchedule".data)
      = Except.ok (⟨"node-01",
          [⟨"degradation", "true", "NoSchedule"⟩, ⟨"degradation", "true", "NoSchedule"⟩]⟩ :
            K8sNodeState)
    ∧ (([⟨"degradation", "true", "NoSchedule"⟩, ⟨"degradation", "true", "NoSchedule"⟩] :
          List Taint).filter fun t => decide (t.key = "degradation")).length = 2 := by
  constructor
  · rfl
  · rfl

/-- C1 amended: idempotence per taint key holds only on the demo-mode
route, which checks for an existing taint with the same key and skips the
append — there the whole operation is idempotent, so applying
"degradation" twice leaves the taint set of the once-tainted node. On the
Kubernetes backend path, `taint_node` never errors on a well-formed spec
but appends the parsed taint unconditionally, so re-applying an existing
key adds a duplicate entry. -/
theorem taint_idempotent_amended (node : NodeData) (t : List Char)
    (kn : K8sNodeState) (spec key effect : List Char)
    (h : pySplit ':' spec = [key, effect]) :
    taint_node_demo (taint_node_demo node t) t = taint_node_demo node t
    ∧ ∃ nt : Taint,
        KubernetesManager.taint_node kn spec
          = Except.ok { kn with taints := kn.taints ++ [nt] }
        ∧ nt.key = String.mk ((pySplit '=' key).headD []) := by
  constructor
  · exact apply_demo_taint_idem node (parse_demo_taint t).1 (parse_demo_taint t).2.1
      (parse_demo_taint t).2.2
  · refine ⟨⟨String.mk ((pySplit '=' key).headD []),
      String.mk ((pySplit '=' key).getD 1 "true".data), String.mk effect⟩, ?_, rfl⟩
    unfold KubernetesManager.taint_node
    rw [h]

theorem taint_idempotent_amended_witness :
    pySplit ':' "degradation=true:NoSchedule".data
        = ["degradation=true".data, "NoSchedule".data]
    ∧ taint_node_demo (taint_node_demo { node_id := "node-01" } "degradation=true:NoSchedule".data)
          "degradation=true:NoSchedule".data
        = taint_node_demo { node_id := "node-01" } "degradation=true:NoSchedule".data
    ∧ ∃ nt : Taint,
        KubernetesManager.taint_node plainK8sNode "degradation=true:NoSchedule".data
          = Except.ok { plainK8sNode with taints := plainK8sNode.taints ++ [nt] }
        ∧ nt.key = String.mk ((pySplit '=' "degradation=true".data).headD []) :=
  have h := taint_idempotent_amended { node_id := "node-01" } "degradation=true:NoSchedule".data
    plainK8sNode "degradation=true:NoSchedule".data "degradation=true".data "NoSchedule".data
    (by decide)
  ⟨by decide, h.1, h.2⟩

/-- A Kubernetes node as listed by `v1.list_node()` inside
`find_best_target_node`: its name, its taints, and the pods that
`_get_node_pods` reports on it. -/
structure K8sNode where
  name : String
  taints : List Taint
  pods : List String
deriving DecidableEq

/-- The `best_node` dict built by `find_best_target_node`. -/
structure TargetInfo where
  name : String
  pod_count : ℕ
deriving DecidableEq

namespace KubernetesManager

/-- One iteration of the loop in `find_best_target_node`: skip the source
node and tainted nodes, otherwise replace `(best_node, best_score)` when
this node's pod count is strictly below the best score so far (initially
`float('inf')`, modelled as `⊤`). -/
def findStep (source_node_id : String) (acc : Option TargetInfo × WithTop ℕ) (node : K8sNode) :
    Option TargetInfo × WithTop ℕ :=
  if node.name = source_node_id then acc
  else if node.taints.isEmpty = false then acc
  else
    if (node.pods.length : WithTop ℕ) < acc.2 then
      (some ⟨node.name, node.pods.length⟩, (node.pods.length : WithTop ℕ))
    else acc

/-- Embeds `KubernetesManager.find_best_target_node`; the node listing returned by
the Kubernetes API is the `nodes` parameter. -/
def find_best_target_node (nodes : List K8sNode) (source_node_id : String) : Option TargetInfo :=
  (nodes.foldl (findStep source_node_id) (none, ⊤)).1

end KubernetesManager

/-- The eligible candidates of a target search: the nodes other than the
source that carry no taints, with their pod counts, in list order. -/
def eligibleTargets (nodes : List K8sNode) (source_node_id : String) : List TargetInfo :=
  (nodes.filter fun n => decide (¬ n.name = source_node_id) && n.taints.isEmpty).map
    fun n => ⟨n.name, n.pods.length⟩

/-- The guard-free loop body of `find_best_target_node`, acting on the
already-filtered candidates. -/
def infoStep (acc : Option TargetInfo × WithTop ℕ) (t : TargetInfo) :
    Option TargetInfo × WithTop ℕ :=
  if (t.pod_count : WithTop ℕ) < acc.2 then (some t, (t.pod_count : WithTop ℕ)) else acc

theorem foldl_findStep_filter (source_node_id : String) (nodes : List K8sNode) :
    ∀ acc, nodes.foldl (KubernetesManager.findStep source_node_id) acc
      = (eligibleTargets nodes source_node_id).foldl infoStep acc := by
  induction nodes with
  | nil => intro acc; rfl
  | cons n ns ih =>
      intro acc
      by_cases h1 : n.name = source_node_id
      · have hstep : KubernetesManager.findStep source_node_id acc n = acc := by
          unfold KubernetesManager.findStep
          rw [if_pos h1]
        rw [List.foldl_cons, hstep, ih]
        unfold eligibleTargets
        rw [List.filter_cons]
        simp [h1]
      · by_cases h2 : n.taints.isEmpty
        · have hstep : KubernetesManager.findStep source_node_id acc n
              = infoStep acc ⟨n.name, n.pods.length⟩ := by
            unfold KubernetesManager.findStep infoStep
            rw [if_neg h1, if_neg (by simp [h2])]
          rw [List.foldl_cons, hstep, ih]
          unfold eligibleTargets
          rw [List.filter_cons]
          simp [h1, h2, List.foldl_cons]
        · have hstep : KubernetesManager.findStep source_node_id acc n = acc := by
            unfold KubernetesManager.findStep
            rw [if_neg h1, if_pos (by revert h2; cases n.taints.isEmpty <;> simp)]
          rw [List.foldl_cons, hstep, ih]
          unfold eligibleTargets
          rw [List.filter_cons]
          simp [h1, h2]

/-- The running minimum over the candidate tail, keeping the earlier
element on ties (mirror of the strict-< update of the loop). -/
def selectMin (t : TargetInfo) : List TargetInfo → TargetInfo
  | [] => t
  | u :: l => if u.pod_count < t.pod_count then selectMin u l else selectMin t l

theorem foldl_infoStep_some (l : List TargetInfo) :
    ∀ t : TargetInfo,
      (l.foldl infoStep (some t, (t.pod_count : WithTop ℕ))).1 = some (selectMin t l) := by
  induction l with
  | nil => intro t; rfl
  | cons u l ih =>
      intro t
      rw [List.foldl_cons]
      by_cases h : u.pod_count < t.pod_count
      · have hstep : infoStep (some t, (t.pod_count : WithTop ℕ)) u
            = (some u, (u.pod_count : WithTop ℕ)) := by
          simp [infoStep, h]
        rw [hstep, ih u]
        have hsel : selectMin t (u :: l) = selectMin u l := by
          show (if u.pod_count < t.pod_count then selectMin u l else selectMin t l) = _
          rw [if_pos h]
        rw [hsel]
      · have hstep : infoStep (some t, (t.pod_count : WithTop ℕ)) u
            = (some t, (t.pod_count : WithTop ℕ)) := by
          simp [infoStep, h]
        rw [hstep, ih t]
        have hsel : selectMin t (u :: l) = selectMin t l := by
          show (if u.pod_count < t.pod_count then selectMin u l else selectMin t l) = _
          rw [if_neg h]
        rw [hsel]

theorem foldl_infoStep_none (l : List TargetInfo) :
    (l.foldl infoStep ((none : Option TargetInfo), (⊤ : WithTop ℕ))).1
      = match l with
        | [] => none
        | t :: l2 => some (selectMin t l2) := by
  cases l with
  | nil => rfl
  | cons t l2 =>
      rw [List.foldl_cons]
      have hstep : infoStep (none, ⊤) t = (some t, (t.pod_count : WithTop ℕ)) := by
        simp [infoStep]
      rw [hstep]
      exact foldl_infoStep_some l2 t

theorem selectMin_eq_find? (l : List TargetInfo) :
    ∀ t : TargetInfo,
      (t :: l).find? (fun x => (t :: l).all fun u => decide (x.pod_count ≤ u.pod_count))
        = some (selectMin t l) := by
  induction l with
  | nil =>
      intro t
      rw [List.find?_cons_of_pos _ (by simp [List.all_cons])]
      rfl
  | cons a l2 ih =>
      intro t
      by_cases hc : a.pod_count < t.pod_count
      · have hsel : selectMin t (a :: l2) = selectMin a l2 := by
          show (if a.pod_count < t.pod_count then selectMin a l2 else selectMin t l2) = _
          rw [if_pos hc]
        rw [hsel]
        have hta : ¬ t.pod_count ≤ a.pod_count := by omega
        rw [List.find?_cons_of_neg _ (by simp [List.all_cons, hta])]
        have hfun : (fun x : TargetInfo =>
              (t :: a :: l2).all fun u => decide (x.pod_count ≤ u.pod_count))
            = (fun x => (a :: l2).all fun u => decide (x.pod_count ≤ u.pod_count)) := by
          funext x
          by_cases hxa : x.pod_count ≤ a.pod_count
          · have hxt : x.pod_count ≤ t.pod_count := by omega
            simp [List.all_cons, hxa, hxt]
          · simp [List.all_cons, hxa]
        rw [hfun]
        exact ih a
      · have hsel : selectMin t (a :: l2) = selectMin t l2 := by
          show (if a.pod_count < t.pod_count then selectMin a l2 else selectMin t l2) = _
          rw [if_neg hc]
        rw [hsel]
        have hfun : (fun x : TargetInfo =>
              (t :: a :: l2).all fun u => decide (x.pod_count ≤ u.pod_count))
            = (fun x => (t :: l2).all fun u => decide (x.pod_count ≤ u.pod_count)) := by
          funext x
          by_cases hxt : x.pod_count ≤ t.pod_count
          · have hxa : x.pod_count ≤ a.pod_count := by omega
            simp [List.all_cons, hxt, hxa]
          · simp [List.all_cons, hxt]
        rw [hfun]
        by_cases hQt : ((t :: l2).all fun u => decide (t.pod_count ≤ u.pod_count)) = true
        · rw [@List.find?_cons_of_pos TargetInfo
            (fun x => (t :: l2).all fun u => decide (x.pod_count ≤ u.pod_count)) t (a :: l2) hQt]
          have hih := ih t
          rw [@List.find?_cons_of_pos TargetInfo
            (fun x => (t :: l2).all fun u => decide (x.pod_count ≤ u.pod_count)) t l2 hQt] at hih
          exact hih
        · have hQa : ((t :: l2).all fun u => decide (a.pod_count ≤ u.pod_count)) = false := by
            by_cases hat : a.pod_count ≤ t.pod_count
            · have heq : a.pod_count = t.pod_count := by omega
              rw [show (fun u : TargetInfo => decide (a.pod_count ≤ u.pod_count))
                  = (fun u => decide (t.pod_count ≤ u.pod_count)) from by funext u; rw [heq]]
              exact Bool.eq_false_iff.mpr hQt
            · simp [List.all_cons, hat]
          rw [@List.find?_cons_of_neg TargetInfo
            (fun x => (t :: l2).all fun u => decide (x.pod_count ≤ u.pod_count)) t (a :: l2) hQt,
            @List.find?_cons_of_neg TargetInfo
            (fun x => (t :: l2).all fun u => decide (x.pod_count ≤ u.pod_count)) a l2
            (by simp [hQa])]
          have hih := ih t
          rw [@List.find?_cons_of_neg TargetInfo
            (fun x => (t :: l2).all fun u => decide (x.pod_count ≤ u.pod_count)) t l2 hQt] at hih
          exact hih

/-- The selection rule the code actually implements, stated on the eligible
candidate list: the first candidate in list order whose pod count is less
than or equal to every candidate's pod count. -/
def firstMinTarget (l : List TargetInfo) : Option TargetInfo :=
  l.find? fun t => l.all fun u => decide (t.pod_count ≤ u.pod_count)

/-- C6 amended: target selection returns exactly the FIRST candidate in
list order, among untainted nodes other than the source, whose pod count
is minimal; ties are broken by position in the node listing, not by
smallest node_id (and with no eligible candidate it returns none). -/
theorem find_best_target_spec (nodes : List K8sNode) (source_node_id : String) :
    KubernetesManager.find_best_target_node nodes source_node_id
      = firstMinTarget (eligibleTargets nodes source_node_id) := by
  unfold KubernetesManager.find_best_target_node firstMinTarget
  rw [foldl_findStep_filter, foldl_infoStep_none]
  cases hl : eligibleTargets nodes source_node_id with
  | nil => rfl
  | cons t l2 => exact (selectMin_eq_find? l2 t).symm

/-- Candidate list for the C6 counterexample: two untainted, pod-free
nodes, the one with the LARGER node_id listed first. -/
def tieNodes : List K8sNode :=
  [⟨"node-b", [], []⟩, ⟨"node-a", [], []⟩]

/-- C6 counterexample: both candidates are eligible (untainted, not the
source) and share the minimal pod count 0, and "node-a" has the smallest
node_id — yet the function returns "node-b", the first in list order, so
ties are not broken by smallest node_id. -/
theorem find_best_target_tie_counterexample :
    KubernetesManager.find_best_target_node tieNodes "node-src" = some ⟨"node-b", 0⟩
    ∧ "node-a".data < "node-b".data
    ∧ (tieNodes.map fun n => n.pods.length) = [0, 0]
    ∧ (tieNodes.map fun n => n.taints) = [[], []]
    ∧ (tieNodes.map fun n => decide (n.name = "node-src")) = [false, false] := by
  refine ⟨rfl, by decide, rfl, rfl, by decide⟩

/-- The mutable application state touched by `_migrate_workloads`: the
event log, the audit log and the `workloads_moved_cumulative` counter. -/
structure AppState where
  event_manager : EventManager
  audit_logger : AuditLogger
  workloads_moved_cumulative : ℕ

namespace MonitoringService

/-- Embeds `MonitoringService._migrate_workloads`. The Kubernetes backend
responses are parameters: `target_node` is what `find_best_target_node`
returned and `drain_result` the outcome of `drain_node` (which may raise;
the surrounding try/except then logs and leaves the state untouched).
With no pods the function returns immediately; in demo mode the migration
is simulated on the pod list itself. -/
def migrate_workloads (k8s_available : Bool) (target_node : Option TargetInfo)
    (drain_result : Except String ℕ) (node_data : NodeData) (st : AppState) : AppState :=
  let pods := node_data.pods
  if pods.isEmpty then st
  else if k8s_available then
    match target_node with
    | some target =>
        match drain_result with
        | Except.ok evicted_count =>
            { st with
              audit_logger := st.audit_logger.log_action "MIGRATE" "pods" "system" "success"
                [("source_node", node_data.node_name), ("target_node", target.name),
                 ("pods_moved", toString evicted_count), ("reason", "Risk mitigation")]
              event_manager := st.event_manager.add_event
                { type := some "action"
                  title := some "Workloads Migrated"
                  description := some "Moved pods between nodes"
                  nodeId := some node_data.node_id
                  details := some [("source", node_data.node_name),
                    ("destination", target.name), ("podsMoved", toString evicted_count),
                    ("gracePeriod", "30s")] }
              workloads_moved_cumulative := st.workloads_moved_cumulative + evicted_count }
        | Except.error _ => st
    | none => st
  else
    let evicted_count := node_data.pods.length
    { st with
      audit_logger := st.audit_logger.log_action "MIGRATE" "pods" "system" "success"
        [("source_node", node_data.node_name), ("pods_moved", toString evicted_count),
         ("mode", "demo"), ("reason", "Risk mitigation")]
      event_manager := st.event_manager.add_event
        { type := some "action"
          title := some "Workloads Migrated (Demo)"
          description := some "Simulated migration"
          nodeId := some node_data.node_id
          details := some [("podsMoved", toString evicted_count), ("mode", "demo")] }
      workloads_moved_cumulative := st.workloads_moved_cumulative + evicted_count }

/-- C7: a node whose pod set is empty when migration is initiated skips
the migration step entirely — in either mode and for every backend
response, the state is returned unchanged: no eviction, no migration
event, no MIGRATE audit entry, no counter change. -/
theorem migrate_workloads_skips_empty (k8s_available : Bool) (target_node : Option TargetInfo)
    (drain_result : Except String ℕ) (node_data : NodeData) (st : AppState)
    (h : node_data.pods = []) :
    migrate_workloads k8s_available target_node drain_result node_data st = st := by
  unfold migrate_workloads
  rw [h]
  simp

theorem migrate_workloads_skips_empty_witness :
    ({ node_id := "node-01", node_name := "worker-01" } : NodeData).pods = []
    ∧ migrate_workloads true (some ⟨"node-02", 0⟩) (Except.ok 3)
        { node_id := "node-01", node_name := "worker-01" }
        ⟨EventManager.init 200, AuditLogger.init 100000, 0⟩
      = ⟨EventManager.init 200, AuditLogger.init 100000, 0⟩ :=
  ⟨rfl, migrate_workloads_skips_empty true (some ⟨"node-02", 0⟩) (Except.ok 3)
    { node_id := "node-01", node_name := "worker-01" }
    ⟨EventManager.init 200, AuditLogger.init 100000, 0⟩ rfl⟩

end MonitoringService

/-- The per-node sweep inside one tick of `_monitor_loop`. The per-node
body — prediction, health scoring, analytics recording, history append,
risk handling — is the parameter `process` over an abstract state `σ`,
returning the updated state or the exception the body raises. The sweep
runs inside the single try of the loop: the first raising node ends the
sweep with the state reached so far and the exception; nodes after it are
not processed. -/
def monitorTickBody {σ : Type} (process : NodeData → σ → Except String σ) :
    List NodeData → σ → σ × Option String
  | [], st => (st, none)
  | node :: rest, st =>
      match process node st with
      | Except.ok st2 => monitorTickBody process rest st2
      | Except.error e => (st, some e)

/-- One tick as guarded by the loop's `except Exception`: any raised error
is caught and logged, and the loop continues with the state reached so
far (the next tick starts from it). -/
def monitorTick {σ : Type} (process : NodeData → σ → Except String σ)
    (nodes : List NodeData) (st : σ) : σ :=
  (monitorTickBody process nodes st).1

/-- A per-node body for the C2 counterexample over the trace state: record
the processed node's id, raising on the designated failing node. -/
def traceProcess (failing : String) (node : NodeData) (st : List String) :
    Except String (List String) :=
  if node.node_id = failing then Except.error "boom" else Except.ok (st ++ [node.node_id])

def nodeA : NodeData := { node_id := "node-a" }

def nodeB : NodeData := { node_id := "node-b" }

/-- C2 counterexample: in a tick over [node-a, node-b] where node-a's
processing raises, node-b is NOT processed (the trace stays empty),
although node-b on its own processes fine — one node's fault does abort
the remaining nodes of the same tick. -/
theorem monitor_loop_isolation_counterexample :
    monitorTickBody (traceProcess "node-a") [nodeA, nodeB] [] = ([], some "boom")
    ∧ monitorTickBody (traceProcess "node-a") [nodeB] [] = (["node-b"], none) :=
  ⟨rfl, rfl⟩

/-- C2 amended: failures are isolated per tick, not per node. When one
node's processing raises, the error is caught at the tick level: the
nodes processed before it keep their effects (the tick returns the state
reached so far, and the loop survives into the next tick), but the nodes
after it in the same tick are skipped. -/
theorem monitor_tick_error_aborts_rest {σ : Type} (process : NodeData → σ → Except String σ)
    (pre post : List NodeData) (node : NodeData) (st st2 : σ) (e : String)
    (hpre : monitorTickBody process pre st = (st2, none))
    (herr : process node st2 = Except.error e) :
    monitorTickBody process (pre ++ node :: post) st = (st2, some e)
    ∧ monitorTick process (pre ++ node :: post) st = st2 := by
  have hmain : monitorTickBody process (pre ++ node :: post) st = (st2, some e) := by
    induction pre generalizing st with
    | nil =>
        simp only [monitorTickBody] at hpre
        obtain ⟨rfl, -⟩ : st = st2 ∧ (none : Option String) = none := by
          exact ⟨congrArg Prod.fst hpre, rfl⟩
        show monitorTickBody process (node :: post) st = (st, some e)
        unfold monitorTickBody
        rw [herr]
    | cons p pre ih =>
        show monitorTickBody process (p :: (pre ++ node :: post)) st = (st2, some e)
        unfold monitorTickBody
        unfold monitorTickBody at hpre
        cases hp : process p st with
        | ok st3 =>
            rw [hp] at hpre
            exact ih st3 hpre
        | error e2 =>
            rw [hp] at hpre
            exact absurd (congrArg Prod.snd hpre) (by simp)
  exact ⟨hmain, by unfold monitorTick; rw [hmain]⟩

def nodeC : NodeData := { node_id := "node-c" }

theorem monitor_tick_error_witness :
    monitorTickBody (traceProcess "node-a") [nodeB] [] = (["node-b"], none)
    ∧ traceProcess "node-a" nodeA ["node-b"] = Except.error "boom"
    ∧ monitorTickBody (traceProcess "node-a") ([nodeB] ++ nodeA :: [nodeC]) []
        = (["node-b"], some "boom")
    ∧ monitorTick (traceProcess "node-a") ([nodeB] ++ nodeA :: [nodeC]) [] = ["node-b"] :=
  have h := monitor_tick_error_aborts_rest (traceProcess "node-a") [nodeB] [nodeC] nodeA
    [] ["node-b"] "boom" rfl rfl
  ⟨rfl, rfl, h.1, h.2⟩

end PredictModel
